import Mathlib

/-!
# Verification of the document cache & ingestion helper

Shallow embedding of `src/utils/document_processor.py` (class
`DocumentProcessor`).  External library collaborators — the MD5 digest
(`hashlib.md5(...).hexdigest()`), the PDF parser (`PyPDFLoader(...).load()`),
the text splitter (`RecursiveCharacterTextSplitter.split_documents`), the
uuid generator (`uuid.uuid4().hex`) — and the possible I/O faults (a cache
read raising, a cache write raising, `os.unlink` raising) are parameters
collected in an `Env`.  The on-disk state (cache directory contents, temp
directory contents) together with an event trace is the `FS` state threaded
through every operation.

The decorators `error_handler` / `log_execution` of `utils/decorators.py`
are not part of the sources.  Modelled from the spec: the spec describes
them as cross-cutting logging / error-wrapping whose failure semantics are
"parse failures propagate to the caller after logging" and "invalid-input
errors are raised immediately", so they are embedded as semantic identity
(logging does not change results and exceptions propagate unchanged).
-/

deriving instance DecidableEq for Except

namespace DocProc

/-- A metadata value of a chunk document (JSON scalar: string or number). -/
inductive MetaVal where
  | str (s : String)
  | num (n : Int)
deriving DecidableEq, Repr

/-- `langchain_core.documents.Document`: extracted text plus metadata. -/
structure Document where
  page_content : String
  metadata : List (String × MetaVal)
deriving DecidableEq, Repr

/-- Contents of one cache file: either a well-formed serialized list of
document dicts (what `_save_to_cache` writes), or bytes on which
`json.load` / `Document(**doc)` raises. -/
inductive CacheFile where
  | docsJson (ds : List Document)
  | corrupt
deriving DecidableEq, Repr

/-- Observable side effects of a processing call, in order. -/
inductive Event where
  | cacheRead (path : String)
  | cacheWrite (path : String)
  | parse
  | tempCreate (path : String)
  | tempUnlink (path : String)
deriving DecidableEq, Repr

/-- External collaborators and the fault model of the I/O they perform. -/
structure Env where
  /-- `hashlib.md5(bytes).hexdigest()` as a function of the digested bytes. -/
  md5hex : List Nat → String
  /-- `uuid.uuid4().hex` for the n-th uuid drawn by this process. -/
  uuidHex : Nat → String
  /-- `PyPDFLoader(path).load()` as a function of the bytes written to `path`. -/
  parse : List Nat → Except String (List Document)
  /-- `text_splitter.split_documents`. -/
  split : List Document → List Document
  /-- whether opening/reading the cache file at this path raises. -/
  readFails : String → Bool
  /-- whether opening/writing the cache file at this path raises. -/
  writeFails : String → Bool
  /-- whether `os.unlink` on this path raises. -/
  unlinkFails : String → Bool

/-- On-disk state plus the trace of observable events. -/
structure FS where
  /-- cache directory contents: path ↦ file contents. -/
  cache : List (String × CacheFile)
  /-- temp directory contents: the paths currently on disk. -/
  temp : List String
  /-- how many uuids have been drawn so far. -/
  uuidCtr : Nat
  /-- trace of events, oldest first. -/
  events : List Event
deriving DecidableEq, Repr

/-- Append one event to the trace. -/
def addEvent (fs : FS) (e : Event) : FS :=
  { fs with events := fs.events ++ [e] }

/-- Association-list lookup over the cache directory. -/
def AList.get? (m : List (String × CacheFile)) (k : String) : Option CacheFile :=
  match m with
  | [] => none
  | (k', v) :: rest => if k' = k then some v else AList.get? rest k

/-- Association-list update (replace-by-name, as a file write does). -/
def AList.set (m : List (String × CacheFile)) (k : String) (v : CacheFile) :
    List (String × CacheFile) :=
  match m with
  | [] => [(k, v)]
  | (k', v') :: rest =>
      if k' = k then (k, v) :: rest else (k', v') :: AList.set rest k v

/-- Python `str.lower()` (ASCII case folding, which is all the extension
dispatch needs). -/
def strToLower (s : String) : String :=
  ⟨s.data.map Char.toLower⟩

/-- Python `str.endswith(suffix)`. -/
def strEndsWith (s suffix : String) : Bool :=
  suffix.data.isSuffixOf s.data

/-- UTF-8 encoding of one character (Python `str.encode()` per char). -/
def utf8EncodeChar (c : Char) : List Nat :=
  let n := c.toNat
  if n < 0x80 then [n]
  else if n < 0x800 then [0xC0 + n / 64, 0x80 + n % 64]
  else if n < 0x10000 then [0xE0 + n / 4096, 0x80 + (n / 64) % 64, 0x80 + n % 64]
  else [0xF0 + n / 0x40000, 0x80 + (n / 4096) % 64, 0x80 + (n / 64) % 64, 0x80 + n % 64]

/-- Python `file_name.encode()`: the UTF-8 bytes of a string. -/
def strBytes (s : String) : List Nat :=
  s.data.flatMap utf8EncodeChar

/-- Strict UTF-8 decoding loop (Python `bytes.decode('utf-8')`).
`pending` continuation bytes are still expected for the code point
accumulated in `cp`, which must come out at least `mn` (overlong check). -/
def utf8DecodeLoop : List Nat → Nat → Nat → Nat → List Char → Except String String
  | [], 0, _, _, acc => .ok ⟨acc.reverse⟩
  | [], _ + 1, _, _, _ => .error "utf-8 codec: unexpected end of data"
  | b :: rest, 0, _, _, acc =>
      if b < 0x80 then utf8DecodeLoop rest 0 0 0 (Char.ofNat b :: acc)
      else if 0xC2 ≤ b ∧ b ≤ 0xDF then utf8DecodeLoop rest 1 (b - 0xC0) 0x80 acc
      else if 0xE0 ≤ b ∧ b ≤ 0xEF then utf8DecodeLoop rest 2 (b - 0xE0) 0x800 acc
      else if 0xF0 ≤ b ∧ b ≤ 0xF4 then utf8DecodeLoop rest 3 (b - 0xF0) 0x10000 acc
      else .error "utf-8 codec: invalid start byte"
  | b :: rest, pending + 1, cp, mn, acc =>
      if 0x80 ≤ b ∧ b ≤ 0xBF then
        let cp' := cp * 64 + (b - 0x80)
        match pending with
        | 0 =>
            if cp' < mn ∨ (0xD800 ≤ cp' ∧ cp' ≤ 0xDFFF) ∨ 0x10FFFF < cp' then
              .error "utf-8 codec: invalid code point"
            else utf8DecodeLoop rest 0 0 0 (Char.ofNat cp' :: acc)
        | pending' + 1 => utf8DecodeLoop rest (pending' + 1) cp' mn acc
      else .error "utf-8 codec: invalid continuation byte"

/-- Python `file_content.decode('utf-8')`. -/
def utf8Decode (bs : List Nat) : Except String String :=
  utf8DecodeLoop bs 0 0 0 []

/-- `_get_cache_path`: `cache_key = md5(file_content + file_name.encode()).hexdigest()`,
path `.cache/{cache_key}.json` (default `cache_dir`). -/
def _get_cache_path (env : Env) (file_content : List Nat) (file_name : String) : String :=
  ".cache/" ++ env.md5hex (file_content ++ strBytes file_name) ++ ".json"

/-- The bytes the cache key digests: file content concatenated with the
encoded file name. -/
def cacheKeyInput (file_content : List Nat) (file_name : String) : List Nat :=
  file_content ++ strBytes file_name

/-- The value `_load_from_cache` comes up with: `None` when the path does
not exist, when opening/reading it raises, or when `json.load` /
`Document(**doc)` raises on its contents; the documents otherwise. -/
def loadFromCacheResult (env : Env) (fs : FS) (cache_path : String) :
    Option (List Document) :=
  match AList.get? fs.cache cache_path with
  | none => none
  | some cf =>
      if env.readFails cache_path then none
      else
        match cf with
        | .docsJson ds => some ds
        | .corrupt => none

/-- `_load_from_cache`: if the path exists, open and `json.load` it and
rebuild the documents; any exception is logged and swallowed, returning
`None` (a miss).  Reading leaves the disk unchanged. -/
def _load_from_cache (env : Env) (fs : FS) (cache_path : String) :
    Option (List Document) × FS :=
  (loadFromCacheResult env fs cache_path, addEvent fs (.cacheRead cache_path))

/-- `_save_to_cache`: serialize the documents and write them at the path;
any exception is logged and swallowed. -/
def _save_to_cache (env : Env) (fs : FS) (cache_path : String)
    (documents : List Document) : FS :=
  let fs := addEvent fs (.cacheWrite cache_path)
  if env.writeFails cache_path then fs
  else { fs with cache := AList.set fs.cache cache_path (.docsJson documents) }

/-- The unique scratch-file name the next `_create_temp_file` call picks:
`./temp/temp_{uuid.uuid4().hex}{suffix}`. -/
def tempName (env : Env) (fs : FS) (suffix : String) : String :=
  "./temp/temp_" ++ env.uuidHex fs.uuidCtr ++ suffix

/-- `_create_temp_file`: write the content to a uniquely named file in the
temp directory and return its path. -/
def _create_temp_file (env : Env) (fs : FS) (_file_content : List Nat)
    (suffix : String) : String × FS :=
  let p := tempName env fs suffix
  (p, { fs with temp := fs.temp ++ [p], uuidCtr := fs.uuidCtr + 1,
                events := fs.events ++ [.tempCreate p] })

/-- `_cleanup_temp_file`: if the path exists, `os.unlink` it; any exception
is logged and swallowed. -/
def _cleanup_temp_file (env : Env) (fs : FS) (temp_path : String) : FS :=
  let fs := addEvent fs (.tempUnlink temp_path)
  if fs.temp.contains temp_path then
    if env.unlinkFails temp_path then fs
    else { fs with temp := fs.temp.erase temp_path }
  else fs

/-- `_process_pdf`: check the cache; on a hit return the cached documents;
on a miss write the bytes to a scratch file, parse, split, save a
non-empty result to the cache, and return it; the scratch file is cleaned
up in a `finally` on every exit path; parse failures are re-raised. -/
def _process_pdf (env : Env) (fs : FS) (file_content : List Nat)
    (file_name : String) : Except String (List Document) × FS :=
  let cache_path := _get_cache_path env file_content file_name
  let loaded := _load_from_cache env fs cache_path
  match loaded.1 with
  | some cached_docs => (.ok cached_docs, loaded.2)
  | none =>
      let created := _create_temp_file env loaded.2 file_content ".pdf"
      let temp_path := created.1
      let fs := addEvent created.2 .parse
      match env.parse file_content with
      | .error e =>
          (.error e, _cleanup_temp_file env fs temp_path)
      | .ok documents =>
          let split_docs := env.split documents
          let fs :=
            if split_docs.isEmpty then fs
            else _save_to_cache env fs cache_path split_docs
          (.ok split_docs, _cleanup_temp_file env fs temp_path)

/-- `clear_cache` deletion loop over `cache_dir.glob("*.json")`: unlink each
matching file in order; the first exception aborts the loop and is
re-raised after logging.  Returns the outcome and the remaining files. -/
def clearCacheAux (env : Env) :
    List (String × CacheFile) → Except String Unit × List (String × CacheFile)
  | [] => (.ok (), [])
  | (p, v) :: rest =>
      if strEndsWith p ".json" then
        if env.unlinkFails p then (.error ("清除缓存失败: " ++ p), (p, v) :: rest)
        else clearCacheAux env rest
      else
        ((clearCacheAux env rest).1, (p, v) :: (clearCacheAux env rest).2)

/-- `clear_cache`: delete every `*.json` file in the cache directory; any
exception is logged and re-raised. -/
def clear_cache (env : Env) (fs : FS) : Except String Unit × FS :=
  ((clearCacheAux env fs.cache).1, { fs with cache := (clearCacheAux env fs.cache).2 })

/-- The first argument of `process_file`: a Streamlit-style upload handle
(has `getvalue` and `name`), a raw bytes buffer, or something else. -/
inductive FileInput where
  | handle (content : List Nat) (name : String)
  | raw (content : List Nat)
  | invalid
deriving DecidableEq, Repr

/-- `hasattr(uploaded_file_or_content, 'getvalue')`. -/
def FileInput.isHandle : FileInput → Bool
  | .handle _ _ => true
  | _ => false

/-- The `ValueError` message for a bad argument shape. -/
def valueErrorMsg : String := "参数错误：需要提供有效的文件对象或文件内容和文件名"

/-- Lines 214–222 of `process_file`: resolve the input to content bytes and
a file name, or raise `ValueError` (a raw buffer needs a truthy name). -/
def resolveInput : FileInput → Option String → Except String (List Nat × String)
  | .handle c n, _ => .ok (c, n)
  | .raw c, some n => if n = "" then .error valueErrorMsg else .ok (c, n)
  | .raw _, none => .error valueErrorMsg
  | .invalid, _ => .error valueErrorMsg

/-- What `process_file` returns: decoded/joined text or the chunk list. -/
inductive ProcResult where
  | text (s : String)
  | docs (ds : List Document)
deriving DecidableEq, Repr

/-- `process_file`: resolve the argument shape, dispatch on the lower-cased
file extension (`.pdf` → PDF ingestion, text for an upload handle and the
chunk list otherwise; `.txt` → UTF-8 decode; anything else → a descriptive
"unsupported type" string); every exception is logged and re-raised as
`Exception("处理文件失败: ...")`. -/
def process_file (env : Env) (fs : FS) (inp : FileInput)
    (file_name : Option String := none) : Except String ProcResult × FS :=
  match resolveInput inp file_name with
  | .error e => (.error ("处理文件失败: " ++ e), fs)
  | .ok (file_content, name) =>
      if strEndsWith (strToLower name) ".pdf" then
        let res := _process_pdf env fs file_content name
        match res.1 with
        | .ok docs =>
            if inp.isHandle then
              (.ok (.text (String.intercalate "\n\n" (docs.map Document.page_content))), res.2)
            else (.ok (.docs docs), res.2)
        | .error e => (.error ("处理文件失败: " ++ e), res.2)
      else if strEndsWith (strToLower name) ".txt" then
        match utf8Decode file_content with
        | .ok s => (.ok (.text s), fs)
        | .error e => (.error ("处理文件失败: " ++ e), fs)
      else (.ok (.text ("不支持的文件类型: " ++ name)), fs)

/-! ## Concrete instances used by witnesses and counterexamples -/

/-- A sample chunk document. -/
def sampleDoc : Document :=
  { page_content := "page one text", metadata := [("page", .num 0)] }

/-- A fault-free sample environment whose parser yields one page and whose
splitter is the identity. -/
def sampleEnv : Env :=
  { md5hex := fun _ => "0123abcd"
    uuidHex := fun k => toString k
    parse := fun _ => .ok [sampleDoc]
    split := fun ds => ds
    readFails := fun _ => false
    writeFails := fun _ => false
    unlinkFails := fun _ => false }

/-- The empty starting state. -/
def fs0 : FS := { cache := [], temp := [], uuidCtr := 0, events := [] }

/-- A deterministic stand-in digest distinguishing the byte strings digested
below; any deterministic digest exhibits the collision shown for C4, since
the digested byte strings coincide there. -/
def collDigest (bs : List Nat) : String :=
  ⟨bs.map fun b => Char.ofNat (48 + b % 10)⟩

/-- Environment whose parser output depends on the file bytes, used to show
that a colliding cache key serves one input the other input's chunks. -/
def collEnv : Env :=
  { sampleEnv with
    md5hex := collDigest
    parse := fun c =>
      .ok [{ page_content := if c = [97] then "short doc" else "long doc",
             metadata := [] }] }

/-- Environment whose splitter returns no chunks. -/
def emptySplitEnv : Env := { sampleEnv with split := fun _ => [] }

/-- Environment whose parser raises. -/
def parseFailEnv : Env := { sampleEnv with parse := fun _ => .error "corrupt pdf" }

/-- Environment in which every cache read raises. -/
def readFailEnv : Env := { sampleEnv with readFails := fun _ => true }

/-- Environment in which every `os.unlink` raises. -/
def unlinkFailEnv : Env := { sampleEnv with unlinkFails := fun _ => true }

/-- A state whose cache holds, at the path the sample environment computes
for bytes `[1, 2]` and name `a.pdf`, a file on which `json.load` /
`Document(**doc)` raises. -/
def corruptFS : FS := { fs0 with cache := [(".cache/0123abcd.json", .corrupt)] }

/-- The state after one fault-free sample `_process_pdf` run (bytes `[1, 2]`,
name `a.pdf`) starting from the empty state. -/
def sampleFS1 : FS :=
  { cache := [(".cache/0123abcd.json", .docsJson [sampleDoc])]
    temp := []
    uuidCtr := 1
    events := [.cacheRead ".cache/0123abcd.json", .tempCreate "./temp/temp_0.pdf",
               .parse, .cacheWrite ".cache/0123abcd.json",
               .tempUnlink "./temp/temp_0.pdf"] }

/-! ## Projection facts about the operations -/

@[simp] theorem addEvent_cache (fs : FS) (e : Event) : (addEvent fs e).cache = fs.cache := rfl

@[simp] theorem addEvent_temp (fs : FS) (e : Event) : (addEvent fs e).temp = fs.temp := rfl

@[simp] theorem addEvent_uuidCtr (fs : FS) (e : Event) : (addEvent fs e).uuidCtr = fs.uuidCtr := rfl

@[simp] theorem addEvent_events (fs : FS) (e : Event) :
    (addEvent fs e).events = fs.events ++ [e] := rfl

theorem AList.get?_set_self (m : List (String × CacheFile)) (k : String) (v : CacheFile) :
    AList.get? (AList.set m k v) k = some v := by
  induction m with
  | nil => simp [AList.set, AList.get?]
  | cons hd tl ih =>
      obtain ⟨k', v'⟩ := hd
      by_cases h : k' = k <;> simp [AList.set, AList.get?, h, ih]

theorem loadFromCacheResult_congr (env : Env) {fs fs' : FS} (p : String)
    (h : fs'.cache = fs.cache) :
    loadFromCacheResult env fs' p = loadFromCacheResult env fs p := by
  unfold loadFromCacheResult
  rw [h]

@[simp] theorem save_cache (env : Env) (fs : FS) (p : String) (ds : List Document) :
    (_save_to_cache env fs p ds).cache =
      if env.writeFails p then fs.cache else AList.set fs.cache p (.docsJson ds) := by
  unfold _save_to_cache
  split <;> rfl

@[simp] theorem save_temp (env : Env) (fs : FS) (p : String) (ds : List Document) :
    (_save_to_cache env fs p ds).temp = fs.temp := by
  unfold _save_to_cache
  split <;> rfl

@[simp] theorem save_uuidCtr (env : Env) (fs : FS) (p : String) (ds : List Document) :
    (_save_to_cache env fs p ds).uuidCtr = fs.uuidCtr := by
  unfold _save_to_cache
  split <;> rfl

@[simp] theorem save_events (env : Env) (fs : FS) (p : String) (ds : List Document) :
    (_save_to_cache env fs p ds).events = fs.events ++ [Event.cacheWrite p] := by
  unfold _save_to_cache
  split <;> rfl

@[simp] theorem create_fst (env : Env) (fs : FS) (c : List Nat) (s : String) :
    (_create_temp_file env fs c s).1 = tempName env fs s := rfl

@[simp] theorem create_cache (env : Env) (fs : FS) (c : List Nat) (s : String) :
    (_create_temp_file env fs c s).2.cache = fs.cache := rfl

@[simp] theorem create_temp (env : Env) (fs : FS) (c : List Nat) (s : String) :
    (_create_temp_file env fs c s).2.temp = fs.temp ++ [tempName env fs s] := rfl

@[simp] theorem create_events (env : Env) (fs : FS) (c : List Nat) (s : String) :
    (_create_temp_file env fs c s).2.events = fs.events ++ [Event.tempCreate (tempName env fs s)] := rfl

@[simp] theorem cleanup_cache (env : Env) (fs : FS) (p : String) :
    (_cleanup_temp_file env fs p).cache = fs.cache := by
  simp only [_cleanup_temp_file, addEvent]
  split
  · split <;> rfl
  · rfl

@[simp] theorem cleanup_events (env : Env) (fs : FS) (p : String) :
    (_cleanup_temp_file env fs p).events = fs.events ++ [Event.tempUnlink p] := by
  simp only [_cleanup_temp_file, addEvent]
  split
  · split <;> rfl
  · rfl

theorem cleanup_temp_removes (env : Env) (fs : FS) (p : String)
    (hmem : p ∈ fs.temp) (hok : env.unlinkFails p = false) :
    (_cleanup_temp_file env fs p).temp = fs.temp.erase p := by
  simp [_cleanup_temp_file, addEvent, hmem, hok]

theorem cleanup_restores (env : Env) (fs' : FS) (base : List String) (tp : String)
    (h : fs'.temp = base ++ [tp]) (hfresh : tp ∉ base)
    (hok : env.unlinkFails tp = false) :
    (_cleanup_temp_file env fs' tp).temp = base := by
  rw [cleanup_temp_removes env fs' tp (by rw [h]; simp) hok, h,
      List.erase_append_right _ hfresh]
  simp

theorem loadFromCacheResult_readFails (env : Env) (fs : FS) (p : String)
    (h : env.readFails p = true) :
    loadFromCacheResult env fs p = none := by
  unfold loadFromCacheResult
  rcases AList.get? fs.cache p with _ | cf <;> simp [h]

theorem loadFromCacheResult_corrupt (env : Env) (fs : FS) (p : String)
    (h : AList.get? fs.cache p = some .corrupt) :
    loadFromCacheResult env fs p = none := by
  unfold loadFromCacheResult
  rw [h]
  cases env.readFails p <;> simp

/-- A `_process_pdf` call whose cache lookup comes up empty — for whatever
reason — parses and chunks: it returns exactly the parse-and-split outcome
and appends exactly one parse event. -/
theorem process_pdf_miss_parses (env : Env) (fs : FS) (c : List Nat) (n : String)
    (hl : loadFromCacheResult env fs (_get_cache_path env c n) = none) :
    (_process_pdf env fs c n).1 = Except.map env.split (env.parse c) ∧
    ((_process_pdf env fs c n).2).events.count Event.parse
      = fs.events.count Event.parse + 1 := by
  rcases hp : env.parse c with e | docs
  · simp [_process_pdf, _load_from_cache, hl, hp, Except.map]
  · simp only [_process_pdf, _load_from_cache, hl, hp]
    refine ⟨by simp [Except.map], ?_⟩
    split <;> simp [List.count_append, List.count_cons]

theorem clearCacheAux_ok (env : Env) (l : List (String × CacheFile))
    (h : ∀ p ∈ l.map Prod.fst, strEndsWith p ".json" = true → env.unlinkFails p = false) :
    (clearCacheAux env l).1 = .ok () ∧
    ∀ pv ∈ (clearCacheAux env l).2, strEndsWith pv.1 ".json" = false := by
  induction l with
  | nil => simp [clearCacheAux]
  | cons hd tl ih =>
      obtain ⟨p, v⟩ := hd
      have htl : ∀ q ∈ tl.map Prod.fst, strEndsWith q ".json" = true →
          env.unlinkFails q = false := by
        intro q hq
        exact h q (by simp [hq])
      cases hj : strEndsWith p ".json" with
      | true =>
          have hu : env.unlinkFails p = false := h p (by simp) hj
          simpa [clearCacheAux, hj, hu] using ih htl
      | false =>
          have htl2 := ih htl
          refine ⟨by simp [clearCacheAux, hj, htl2.1], ?_⟩
          intro pv hpv
          have hpv' : pv = (p, v) ∨ pv ∈ (clearCacheAux env tl).2 := by
            simpa [clearCacheAux, hj] using hpv
          rcases hpv' with h' | h'
          · rw [h']; exact hj
          · exact htl2.2 pv h'

theorem clearCacheAux_err (env : Env) (l : List (String × CacheFile))
    (h : ∃ p ∈ l.map Prod.fst, strEndsWith p ".json" = true ∧ env.unlinkFails p = true) :
    ∃ m, (clearCacheAux env l).1 = .error m := by
  induction l with
  | nil => simp at h
  | cons hd tl ih =>
      obtain ⟨p, v⟩ := hd
      rcases h with ⟨q, hq, hqj, hqu⟩
      simp only [List.map_cons, List.mem_cons] at hq
      cases hj : strEndsWith p ".json" with
      | true =>
          cases hu : env.unlinkFails p with
          | true => exact ⟨"清除缓存失败: " ++ p, by simp [clearCacheAux, hj, hu]⟩
          | false =>
              have hqtl : q ∈ tl.map Prod.fst := by
                rcases hq with hq | hq
                · subst hq; rw [hqu] at hu; exact absurd hu (by simp)
                · exact hq
              have := ih ⟨q, hqtl, hqj, hqu⟩
              simpa [clearCacheAux, hj, hu] using this
      | false =>
          have hqtl : q ∈ tl.map Prod.fst := by
            rcases hq with hq | hq
            · subst hq; rw [hqj] at hj; exact absurd hj (by simp)
            · exact hq
          have := ih ⟨q, hqtl, hqj, hqu⟩
          simpa [clearCacheAux, hj] using this

/-- After a `_process_pdf` call that returned a non-empty chunk list whose
cache write and cache read do not fail, the cache at the computed path
deserializes to exactly that list. -/
theorem process_pdf_fst_ok_load (env : Env) (fs fs₁ : FS) (c : List Nat)
    (n : String) (ds : List Document)
    (h1 : _process_pdf env fs c n = (.ok ds, fs₁))
    (hne : ds ≠ [])
    (hr : env.readFails (_get_cache_path env c n) = false)
    (hw : env.writeFails (_get_cache_path env c n) = false) :
    loadFromCacheResult env fs₁ (_get_cache_path env c n) = some ds := by
  rcases hl : loadFromCacheResult env fs (_get_cache_path env c n) with _ | ds0
  · rcases hp : env.parse c with e | docs
    · simp [_process_pdf, _load_from_cache, hl, hp] at h1
    · simp only [_process_pdf, _load_from_cache, hl, hp] at h1
      rw [Prod.mk.injEq] at h1
      obtain ⟨hds, hfs⟩ := h1
      rw [Except.ok.injEq] at hds
      cases ds with
      | nil => exact absurd rfl hne
      | cons d t =>
          rw [← hfs]
          rw [loadFromCacheResult]
          rw [cleanup_cache]
          rw [hds]
          simp [hw, AList.get?_set_self, hr]
  · simp only [_process_pdf, _load_from_cache, hl] at h1
    rw [Prod.mk.injEq] at h1
    obtain ⟨hds, hfs⟩ := h1
    rw [Except.ok.injEq] at hds
    rw [← hfs,
        loadFromCacheResult_congr env _ (addEvent_cache fs (Event.cacheRead (_get_cache_path env c n))),
        hl, hds]

/-- Prefix/suffix cancellation for string concatenation. -/
theorem append_affix_cancel (p s a b : String)
    (h : p ++ a ++ s = p ++ b ++ s) : a = b := by
  have hd := congrArg String.data h
  simp only [String.data_append, List.append_assoc] at hd
  have hd' := List.append_cancel_left hd
  have hd'' := List.append_cancel_right hd'
  exact congrArg String.mk hd''

@[simp] theorem tempName_addEvent (env : Env) (fs : FS) (e : Event) (s : String) :
    tempName env (addEvent fs e) s = tempName env fs s := rfl

/-- One `_process_pdf` call on a miss whose splitter output is empty:
result, cache, and the exact events it appends. -/
theorem process_pdf_miss_empty (env : Env) (fs : FS) (c : List Nat) (n : String)
    (docs : List Document)
    (hmiss : loadFromCacheResult env fs (_get_cache_path env c n) = none)
    (hparse : env.parse c = .ok docs)
    (hempty : env.split docs = []) :
    (_process_pdf env fs c n).1 = .ok [] ∧
    ((_process_pdf env fs c n).2).cache = fs.cache ∧
    ((_process_pdf env fs c n).2).events
      = fs.events ++ [.cacheRead (_get_cache_path env c n),
          .tempCreate (tempName env fs ".pdf"), .parse,
          .tempUnlink (tempName env fs ".pdf")] := by
  refine ⟨?_, ?_, ?_⟩ <;>
    simp [_process_pdf, _load_from_cache, hmiss, hparse, hempty]

/-! ## The claims -/

/-- C3: a chunk list written with `_save_to_cache` and reloaded with
`_load_from_cache` comes back equal field-for-field, whenever the cache
write and the cache read do not themselves fail. -/
theorem cache_round_trip (env : Env) (fs : FS) (cache_path : String)
    (documents : List Document)
    (hw : env.writeFails cache_path = false)
    (hr : env.readFails cache_path = false) :
    (_load_from_cache env (_save_to_cache env fs cache_path documents) cache_path).1
      = some documents := by
  simp [_load_from_cache, loadFromCacheResult, hw, hr, AList.get?_set_self]

/-- Witness for C3 at a concrete path and document list. -/
theorem cache_round_trip_witness :
    (_load_from_cache sampleEnv (_save_to_cache sampleEnv fs0 ".cache/k.json" [sampleDoc])
        ".cache/k.json").1 = some [sampleDoc] :=
  cache_round_trip sampleEnv fs0 ".cache/k.json" [sampleDoc] rfl rfl

/-- C4 counterexample: the digested bytes are the plain concatenation of
content and encoded name, so bytes `"ab"` with name `"c"` and bytes `"a"`
with name `"bc"` — which differ in both components — share one cache path,
and processing the second input hits the record written for the first,
returning the first input's chunks without invoking the parser. -/
theorem cache_key_collision_cex :
    ([97, 98] : List Nat) ≠ [97] ∧ ("c" : String) ≠ "bc" ∧
    _get_cache_path collEnv [97, 98] "c" = _get_cache_path collEnv [97] "bc" ∧
    (_process_pdf collEnv ((_process_pdf collEnv fs0 [97, 98] "c").2) [97] "bc").1
      = .ok [{ page_content := "long doc", metadata := [] }] ∧
    ((_process_pdf collEnv ((_process_pdf collEnv fs0 [97, 98] "c").2) [97] "bc").2).events.count
        Event.parse = 1 := by
  decide

/-- C4 amended: the cache path is determined by the digest of the
concatenation of the file bytes and the encoded file name — inputs with
equal concatenation always share one CacheKey even when bytes and name both
differ, and inputs receive distinct cache paths exactly on digest
difference. -/
theorem cache_path_determined_by_concatenation (env : Env) (c1 c2 : List Nat)
    (n1 n2 : String) :
    (cacheKeyInput c1 n1 = cacheKeyInput c2 n2 →
        _get_cache_path env c1 n1 = _get_cache_path env c2 n2) ∧
    (env.md5hex (cacheKeyInput c1 n1) ≠ env.md5hex (cacheKeyInput c2 n2) →
        _get_cache_path env c1 n1 ≠ _get_cache_path env c2 n2) := by
  constructor
  · intro h
    unfold cacheKeyInput at h
    unfold _get_cache_path
    rw [h]
  · intro h hc
    apply h
    unfold _get_cache_path at hc
    unfold cacheKeyInput
    exact append_affix_cancel ".cache/" ".json" _ _ hc

/-- Witness for the amended C4: a concrete colliding pair and a concrete
separated pair. -/
theorem cache_path_determined_by_concatenation_witness :
    _get_cache_path collEnv [97, 98] "c" = _get_cache_path collEnv [97] "bc" ∧
    _get_cache_path collEnv [97] "c" ≠ _get_cache_path collEnv [98] "c" :=
  ⟨(cache_path_determined_by_concatenation collEnv [97, 98] [97] "c" "bc").1 (by decide),
   (cache_path_determined_by_concatenation collEnv [97] [98] "c" "c").2 (by decide)⟩

/-- C6: a resolvable input whose file name ends (case-insensitively) in
neither `.pdf` nor `.txt` makes `process_file` return the descriptive
unsupported-type string naming the file, with no exception and no change to
the disk or the event trace. -/
theorem process_file_unsupported_extension (env : Env) (fs : FS) (inp : FileInput)
    (fn : Option String) (c : List Nat) (n : String)
    (hres : resolveInput inp fn = .ok (c, n))
    (hpdf : strEndsWith (strToLower n) ".pdf" = false)
    (htxt : strEndsWith (strToLower n) ".txt" = false) :
    process_file env fs inp fn = (.ok (.text ("不支持的文件类型: " ++ n)), fs) := by
  simp [process_file, hres, hpdf, htxt]

/-- Witness for C6 at a `.docx` input. -/
theorem process_file_unsupported_extension_witness :
    process_file sampleEnv fs0 (.raw [1]) (some "report.docx")
      = (.ok (.text ("不支持的文件类型: " ++ "report.docx")), fs0) :=
  process_file_unsupported_extension sampleEnv fs0 (.raw [1]) (some "report.docx")
    [1] "report.docx" (by decide) (by decide) (by decide)

/-- C7: raw bytes holding the UTF-8 encoding of `"hello"` under any
non-empty file name ending in `.txt` make `process_file` return exactly
`"hello"`, leaving the cache, the temp directory and the event trace
untouched. -/
theorem process_file_txt_hello (env : Env) (fs : FS) (n : String)
    (hn : n ≠ "")
    (hpdf : strEndsWith (strToLower n) ".pdf" = false)
    (htxt : strEndsWith (strToLower n) ".txt" = true) :
    process_file env fs (.raw (strBytes "hello")) (some n)
      = (.ok (.text "hello"), fs) := by
  have hdec : utf8Decode (strBytes "hello") = .ok "hello" := rfl
  simp [process_file, resolveInput, hn, hpdf, htxt, hdec]

/-- Witness for C7 at the file name `note.txt`. -/
theorem process_file_txt_hello_witness :
    process_file sampleEnv fs0 (.raw (strBytes "hello")) (some "note.txt")
      = (.ok (.text "hello"), fs0) :=
  process_file_txt_hello sampleEnv fs0 "note.txt" (by decide) (by decide) (by decide)

/-- C8: an invalid argument shape — raw bytes with the file name missing or
empty, or a first argument that is neither an upload handle nor bytes —
makes `process_file` raise the wrapped invalid-input `ValueError` at once,
with no parsing, caching or scratch-file activity (the state, including the
event trace, is returned untouched). -/
theorem process_file_invalid_shape (env : Env) (fs : FS) (c : List Nat) :
    process_file env fs (.raw c) none
        = (.error ("处理文件失败: " ++ valueErrorMsg), fs) ∧
    process_file env fs (.raw c) (some "")
        = (.error ("处理文件失败: " ++ valueErrorMsg), fs) ∧
    (∀ fn : Option String, process_file env fs .invalid fn
        = (.error ("处理文件失败: " ++ valueErrorMsg), fs)) := by
  refine ⟨rfl, ?_, fun fn => rfl⟩
  simp [process_file, resolveInput]

/-- C1 counterexample: when the splitter output is empty nothing is cached,
so a second `_process_pdf` call on the same bytes and the same name invokes
the parser again (two parse events accumulate over the two calls) instead
of obtaining the result from the cache. -/
theorem process_pdf_second_call_reparses_cex :
    (_process_pdf emptySplitEnv fs0 [1, 2] "a.pdf").1 = .ok [] ∧
    (_process_pdf emptySplitEnv ((_process_pdf emptySplitEnv fs0 [1, 2] "a.pdf").2)
        [1, 2] "a.pdf").1 = .ok [] ∧
    ((_process_pdf emptySplitEnv ((_process_pdf emptySplitEnv fs0 [1, 2] "a.pdf").2)
        [1, 2] "a.pdf").2).events.count Event.parse = 2 := by
  decide

/-- C1 amended: once a `_process_pdf` call has returned a non-empty chunk
list and the cache write and read at its path do not fail, calling
`_process_pdf` again with the same bytes and the same name returns the
identical chunk list, and the second call performs exactly one cache read —
no parser invocation, no scratch file, no cache write. -/
theorem process_pdf_idempotent_cached (env : Env) (fs fs₁ : FS) (c : List Nat)
    (n : String) (ds : List Document)
    (h1 : _process_pdf env fs c n = (.ok ds, fs₁))
    (hne : ds ≠ [])
    (hr : env.readFails (_get_cache_path env c n) = false)
    (hw : env.writeFails (_get_cache_path env c n) = false) :
    _process_pdf env fs₁ c n
      = (.ok ds, addEvent fs₁ (.cacheRead (_get_cache_path env c n))) := by
  have hload := process_pdf_fst_ok_load env fs fs₁ c n ds h1 hne hr hw
  simp [_process_pdf, _load_from_cache, hload]

/-- Witness for the amended C1 at a fault-free concrete run. -/
theorem process_pdf_idempotent_cached_witness :
    _process_pdf sampleEnv sampleFS1 [1, 2] "a.pdf"
      = (.ok [sampleDoc],
         addEvent sampleFS1 (.cacheRead (_get_cache_path sampleEnv [1, 2] "a.pdf"))) :=
  process_pdf_idempotent_cached sampleEnv fs0 sampleFS1 [1, 2] "a.pdf" [sampleDoc]
    (by decide) (by decide) rfl rfl

/-- C2 counterexample: when `os.unlink` raises, the exception is swallowed
and the scratch file written for the call is still on disk after
`_process_pdf` returns. -/
theorem process_pdf_scratch_left_cex :
    ((_process_pdf unlinkFailEnv fs0 [1, 2] "a.pdf").2).temp
      = ["./temp/temp_0.pdf"] := by
  decide

/-- C2 amended: provided the generated scratch name is fresh and deleting it
does not itself fail, no scratch file created by a `_process_pdf` call —
returning normally or propagating a parser exception — remains on disk: the
temp directory is exactly what it was before the call. -/
theorem process_pdf_scratch_cleanup (env : Env) (fs : FS) (c : List Nat) (n : String)
    (hfresh : tempName env fs ".pdf" ∉ fs.temp)
    (hok : env.unlinkFails (tempName env fs ".pdf") = false) :
    ((_process_pdf env fs c n).2).temp = fs.temp := by
  rcases hl : loadFromCacheResult env fs (_get_cache_path env c n) with _ | ds0
  · rcases hp : env.parse c with e | docs
    · simp only [_process_pdf, _load_from_cache, hl, hp]
      exact cleanup_restores env _ fs.temp _ (by simp) hfresh hok
    · simp only [_process_pdf, _load_from_cache, hl, hp]
      split
      · exact cleanup_restores env _ fs.temp _ (by simp) hfresh hok
      · exact cleanup_restores env _ fs.temp _ (by simp) hfresh hok
  · simp [_process_pdf, _load_from_cache, hl]

/-- Witness for the amended C2: the parser-exception path and the success
path, at concrete inputs. -/
theorem process_pdf_scratch_cleanup_witness :
    ((_process_pdf parseFailEnv fs0 [9] "b.pdf").2).temp = fs0.temp ∧
    ((_process_pdf sampleEnv fs0 [1, 2] "a.pdf").2).temp = fs0.temp :=
  ⟨process_pdf_scratch_cleanup parseFailEnv fs0 [9] "b.pdf" (by decide) rfl,
   process_pdf_scratch_cleanup sampleEnv fs0 [1, 2] "a.pdf" (by decide) rfl⟩

/-- C5: a failing cache read is treated as a miss — `_process_pdf` still
parses (one new parse event) and returns exactly the parse-and-split
outcome; a cache entry whose deserialization raises (`json.load` /
`Document(**doc)` failing on its contents) is treated the same way; and the
returned value never depends on whether the cache write fails, so a write
failure neither changes the returned chunk list nor raises. -/
theorem cache_faults_swallowed (env : Env) (fs : FS) (c : List Nat) (n : String) :
    (env.readFails (_get_cache_path env c n) = true →
        (_process_pdf env fs c n).1 = Except.map env.split (env.parse c) ∧
        ((_process_pdf env fs c n).2).events.count Event.parse
          = fs.events.count Event.parse + 1) ∧
    (AList.get? fs.cache (_get_cache_path env c n) = some .corrupt →
        (_process_pdf env fs c n).1 = Except.map env.split (env.parse c) ∧
        ((_process_pdf env fs c n).2).events.count Event.parse
          = fs.events.count Event.parse + 1) ∧
    (∀ g, (_process_pdf { env with writeFails := g } fs c n).1
        = (_process_pdf env fs c n).1) := by
  refine ⟨fun hr => ?_, fun hcor => ?_, fun g => ?_⟩
  · exact process_pdf_miss_parses env fs c n
      (loadFromCacheResult_readFails env fs (_get_cache_path env c n) hr)
  · exact process_pdf_miss_parses env fs c n
      (loadFromCacheResult_corrupt env fs (_get_cache_path env c n) hcor)
  ·
    have hl' : loadFromCacheResult { env with writeFails := g } fs (_get_cache_path env c n)
        = loadFromCacheResult env fs (_get_cache_path env c n) := rfl
    rcases hl : loadFromCacheResult env fs (_get_cache_path env c n) with _ | ds0
    · rcases hp : env.parse c with e | docs
      · simp only [_process_pdf, _load_from_cache]
        rw [show _get_cache_path { env with writeFails := g } c n = _get_cache_path env c n from rfl,
            hl', hl]
        simp only []
        rw [show Env.parse { env with writeFails := g } = env.parse from rfl, hp]
      · simp only [_process_pdf, _load_from_cache]
        rw [show _get_cache_path { env with writeFails := g } c n = _get_cache_path env c n from rfl,
            hl', hl]
        simp only []
        rw [show Env.parse { env with writeFails := g } = env.parse from rfl, hp]
    · simp only [_process_pdf, _load_from_cache]
      rw [show _get_cache_path { env with writeFails := g } c n = _get_cache_path env c n from rfl,
          hl', hl]

/-- Witness for C5: a concrete state with a poisoned cache read, a concrete
state holding a corrupt cache record at the computed path, and a poisoned
cache write on top of the first. -/
theorem cache_faults_swallowed_witness :
    ((_process_pdf readFailEnv fs0 [1, 2] "a.pdf").1
        = Except.map readFailEnv.split (readFailEnv.parse [1, 2]) ∧
      ((_process_pdf readFailEnv fs0 [1, 2] "a.pdf").2).events.count Event.parse
        = fs0.events.count Event.parse + 1) ∧
    ((_process_pdf sampleEnv corruptFS [1, 2] "a.pdf").1
        = Except.map sampleEnv.split (sampleEnv.parse [1, 2]) ∧
      ((_process_pdf sampleEnv corruptFS [1, 2] "a.pdf").2).events.count Event.parse
        = corruptFS.events.count Event.parse + 1) ∧
    (_process_pdf { readFailEnv with writeFails := fun _ => true } fs0 [1, 2] "a.pdf").1
      = (_process_pdf readFailEnv fs0 [1, 2] "a.pdf").1 :=
  ⟨(cache_faults_swallowed readFailEnv fs0 [1, 2] "a.pdf").1 rfl,
   (cache_faults_swallowed sampleEnv corruptFS [1, 2] "a.pdf").2.1 (by decide),
   (cache_faults_swallowed readFailEnv fs0 [1, 2] "a.pdf").2.2 (fun _ => true)⟩

/-- C9 counterexample: an individual cache-file deletion failure inside
`clear_cache` is re-raised to the caller, not swallowed. -/
theorem clear_cache_individual_failure_cex :
    (clear_cache unlinkFailEnv
        { fs0 with cache := [(".cache/aa.json", .docsJson [sampleDoc])] }).1
      = .error ("清除缓存失败: " ++ ".cache/aa.json") := by
  decide

/-- C9 amended: `clear_cache` deletes every persisted cache record and
returns normally only when no deletion fails; any failure — including the
failure to delete a single cache file — is logged and re-raised. -/
theorem clear_cache_raises_on_any_failure (env : Env) (fs : FS) :
    ((∀ p ∈ fs.cache.map Prod.fst, strEndsWith p ".json" = true →
          env.unlinkFails p = false) →
        (clear_cache env fs).1 = .ok () ∧
        ∀ pv ∈ ((clear_cache env fs).2).cache, strEndsWith pv.1 ".json" = false) ∧
    ((∃ p ∈ fs.cache.map Prod.fst, strEndsWith p ".json" = true ∧
          env.unlinkFails p = true) →
        ∃ m, (clear_cache env fs).1 = .error m) := by
  constructor
  · intro h
    have hok := clearCacheAux_ok env fs.cache h
    exact ⟨hok.1, fun pv hpv => hok.2 pv hpv⟩
  · intro h
    exact clearCacheAux_err env fs.cache h

/-- Witness for the amended C9: a fault-free clear empties the cache, and a
failing unlink makes `clear_cache` raise. -/
theorem clear_cache_raises_on_any_failure_witness :
    ((clear_cache sampleEnv
          { fs0 with cache := [(".cache/aa.json", .docsJson [sampleDoc])] }).1 = .ok () ∧
      ∀ pv ∈ ((clear_cache sampleEnv
          { fs0 with cache := [(".cache/aa.json", .docsJson [sampleDoc])] }).2).cache,
        strEndsWith pv.1 ".json" = false) ∧
    (∃ m, (clear_cache unlinkFailEnv
        { fs0 with cache := [(".cache/aa.json", .docsJson [sampleDoc])] }).1 = .error m) :=
  ⟨(clear_cache_raises_on_any_failure sampleEnv
      { fs0 with cache := [(".cache/aa.json", .docsJson [sampleDoc])] }).1 (by decide),
   (clear_cache_raises_on_any_failure unlinkFailEnv
      { fs0 with cache := [(".cache/aa.json", .docsJson [sampleDoc])] }).2 (by decide)⟩

/-- C10: on a cache miss whose splitter output is empty, `_process_pdf`
returns the empty chunk list, writes no cache record (the cache directory
is unchanged), and processing the same input again re-invokes the parser
(a second parse event) instead of hitting the cache. -/
theorem process_pdf_empty_split_no_cache_record (env : Env) (fs : FS) (c : List Nat)
    (n : String) (docs : List Document)
    (hmiss : loadFromCacheResult env fs (_get_cache_path env c n) = none)
    (hparse : env.parse c = .ok docs)
    (hempty : env.split docs = []) :
    (_process_pdf env fs c n).1 = .ok [] ∧
    ((_process_pdf env fs c n).2).cache = fs.cache ∧
    ((_process_pdf env ((_process_pdf env fs c n).2) c n).2).events.count Event.parse
      = fs.events.count Event.parse + 2 := by
  obtain ⟨ha1, ha2, ha3⟩ := process_pdf_miss_empty env fs c n docs hmiss hparse hempty
  have hmiss2 : loadFromCacheResult env ((_process_pdf env fs c n).2)
      (_get_cache_path env c n) = none := by
    rw [loadFromCacheResult_congr env _ ha2, hmiss]
  obtain ⟨hb1, hb2, hb3⟩ :=
    process_pdf_miss_empty env ((_process_pdf env fs c n).2) c n docs hmiss2 hparse hempty
  refine ⟨ha1, ha2, ?_⟩
  rw [hb3, ha3]
  simp [List.count_append, List.count_cons]

/-- Witness for C10 with the empty-splitter environment. -/
theorem process_pdf_empty_split_no_cache_record_witness :
    (_process_pdf emptySplitEnv fs0 [1, 2] "a.pdf").1 = .ok [] ∧
    ((_process_pdf emptySplitEnv fs0 [1, 2] "a.pdf").2).cache = fs0.cache ∧
    ((_process_pdf emptySplitEnv ((_process_pdf emptySplitEnv fs0 [1, 2] "a.pdf").2)
        [1, 2] "a.pdf").2).events.count Event.parse
      = fs0.events.count Event.parse + 2 :=
  process_pdf_empty_split_no_cache_record emptySplitEnv fs0 [1, 2] "a.pdf" [sampleDoc]
    rfl rfl rfl

end DocProc
